import Mathlib

/-!
Shallow embedding of the order and payment workflow of the mern-api-system
repository (Express/Mongoose e-commerce backend).

Modelling conventions:
* JavaScript numbers that carry money are modelled as exact rationals (ℚ);
  the decimal literals appearing in the claims are exactly representable.
* Mongo object ids are modelled as naturals; timestamps (`new Date()`) as a
  `now : Nat` parameter threaded into each handler.
* The database is a record of product and order lists; `findById` is `find?`
  on the id, `findByIdAndUpdate` with `$inc` is a pointwise map.  Mongoose
  `$inc` updates bypass the schema `min: 0` validator, so stock is ℤ.
* A handler is a function from the database and the request data to the
  possibly-updated database paired with an `Except` result, translated
  statement by statement from the route source; an `AppError` carries the
  exact message string and HTTP status of the `throw new AppError(...)`.
* HMAC-SHA256 (`crypto.createHmac`) is an uninterpreted parameter
  `hmac : String → String → String` (key, message ↦ hex digest).
-/

namespace MernApi

/-- Handler results live in `Except`; equality of results is decidable so
that the concrete samples can be checked by evaluation. -/
instance {ε α : Type} [DecidableEq ε] [DecidableEq α] : DecidableEq (Except ε α) := by
  intro a b
  cases a <;> cases b
  case error.error e1 e2 =>
    exact if h : e1 = e2 then .isTrue (by rw [h])
      else .isFalse (fun hc => h (by injection hc))
  case ok.ok a1 a2 =>
    exact if h : a1 = a2 then .isTrue (by rw [h])
      else .isFalse (fun hc => h (by injection hc))
  case error.ok e1 a2 => exact .isFalse (fun hc => by injection hc)
  case ok.error a1 e2 => exact .isFalse (fun hc => by injection hc)

/-- Error record mirroring `AppError(message, statusCode)`. -/
structure AppError where
  message : String
  status : Nat
  deriving Repr, DecidableEq

/-- Product document (src/unnamed/part_001, productSchema); only the fields
read by the order/payment/product routes modelled here are kept, including
the seller reference the product-update route checks.  Stock is ℤ because
`$inc` updates bypass the schema minimum. -/
structure Product where
  id : Nat
  name : String
  price : ℚ
  stock : ℤ
  images : List String
  seller : Nat
  deriving Repr, DecidableEq

/-- Order line item as built by the POST /orders handler: a snapshot of the
product's name, first image url and price, plus the requested quantity. -/
structure OrderItem where
  product : Nat
  name : String
  image : String
  price : ℚ
  quantity : Nat
  deriving Repr, DecidableEq

/-- One entry of the order's status history: {status, note, timestamp}. -/
structure StatusEntry where
  status : String
  note : String
  timestamp : Nat
  deriving Repr, DecidableEq

/-- The order's embedded paymentResult subdocument as written by the
verify-payment handler. -/
structure PaymentResult where
  id : String
  status : String
  razorpayOrderId : String
  razorpayPaymentId : String
  razorpaySignature : String
  deriving Repr, DecidableEq

/-- Blank paymentResult of a freshly created order. -/
def PaymentResult.empty : PaymentResult :=
  { id := "", status := "", razorpayOrderId := "", razorpayPaymentId := "", razorpaySignature := "" }

/-- Order document; fields are those read or written by the order and
payment routes. -/
structure Order where
  id : Nat
  orderNumber : String
  user : Nat
  items : List OrderItem
  shippingAddress : String
  paymentMethod : String
  notes : String
  itemsPrice : ℚ
  shippingPrice : ℚ
  taxPrice : ℚ
  totalPrice : ℚ
  status : String
  statusHistory : List StatusEntry
  paymentResult : PaymentResult
  paymentStatus : String
  isPaid : Bool
  paidAt : Option Nat
  trackingNumber : Option String
  deriving Repr, DecidableEq

/-- Modelled from the spec: the Order model's `addStatusUpdate` method
(models/Order.js is not among the sources; only its call sites are).  Per
the spec's data model the status history is an append-only ordered sequence
of {status, note, timestamp} entries and the order's status field tracks
the latest entry. -/
def Order.addStatusUpdate (o : Order) (status note : String) (now : Nat) : Order :=
  { o with status := status,
           statusHistory := o.statusHistory ++ [⟨status, note, now⟩] }

/-- Shipping/tax policy constants of the Order model's `calculateTotals`
(flat shipping below a free-shipping threshold, fixed tax rate). -/
structure TotalsPolicy where
  freeShippingThreshold : ℚ
  flatShipping : ℚ
  taxRate : ℚ
  deriving Repr, DecidableEq

/-- Modelled from the spec: the Order model's `calculateTotals` method
(models/Order.js is not among the sources).  Per the spec it computes
shipping (flat below a threshold, free above) and tax (fixed rate) from
`itemsPrice` and sums them into `totalPrice`; `itemsPrice` and the line
items are not modified. -/
def Order.calculateTotals (pol : TotalsPolicy) (o : Order) : Order :=
  let ship := if o.itemsPrice < pol.freeShippingThreshold then pol.flatShipping else 0
  let tax := pol.taxRate * o.itemsPrice
  { o with shippingPrice := ship, taxPrice := tax,
           totalPrice := o.itemsPrice + ship + tax }

/-- The persistent state visible to the order/payment routes. -/
structure Db where
  products : List Product
  orders : List Order
  deriving Repr, DecidableEq

/-- `Product.findById`. -/
def findProduct (db : Db) (pid : Nat) : Option Product :=
  db.products.find? (fun p => p.id = pid)

/-- `Order.findById`. -/
def findOrder (db : Db) (oid : Nat) : Option Order :=
  db.orders.find? (fun o => o.id = oid)

/-- `Product.findByIdAndUpdate(pid, {$inc: {stock: d}})`. -/
def Db.incStock (db : Db) (pid : Nat) (d : ℤ) : Db :=
  { db with products :=
      db.products.map (fun p => if p.id = pid then { p with stock := p.stock + d } else p) }

/-- A sequence of `$inc` stock updates, one per loop iteration. -/
def Db.incStocks (db : Db) (l : List (Nat × ℤ)) : Db :=
  l.foldl (fun d x => d.incStock x.1 x.2) db

/-- `order.save()` on an existing document: replace the stored order with
the same id. -/
def Db.updateOrder (db : Db) (o : Order) : Db :=
  { db with orders := db.orders.map (fun x => if x.id = o.id then o else x) }

/-- One item of the POST /orders request body: {product, quantity}. -/
structure ReqItem where
  product : Nat
  quantity : Nat
  deriving Repr, DecidableEq

/-- POST /orders request body. -/
structure CreateOrderRequest where
  items : List ReqItem
  shippingAddress : String
  paymentMethod : String
  notes : String
  deriving Repr, DecidableEq

/-- Error thrown when `Product.findById` returns null. -/
def notFoundErr (pid : Nat) : AppError :=
  ⟨"Product with ID " ++ toString pid ++ " not found", 404⟩

/-- Error thrown when `product.stock < item.quantity`. -/
def insuffErr (name : String) : AppError :=
  ⟨"Insufficient stock for product " ++ name, 400⟩

/-- The order item snapshot built inside the validation loop. -/
def snapItem (p : Product) (q : Nat) : OrderItem :=
  { product := p.id, name := p.name, image := p.images.head?.getD "",
    price := p.price, quantity := q }

/-- The validation loop of POST /orders: resolve each product, check stock,
snapshot name/image/price and accumulate `itemsPrice`; the first failing
item aborts the whole request with its error.  No database write happens
in this phase. -/
def buildOrderItems (db : Db) : List ReqItem → Except AppError (List OrderItem × ℚ)
  | [] => .ok ([], 0)
  | i :: rest =>
    match findProduct db i.product with
    | none => .error (notFoundErr i.product)
    | some p =>
      if p.stock < (i.quantity : ℤ) then .error (insuffErr p.name)
      else
        match buildOrderItems db rest with
        | .error e => .error e
        | .ok (tl, s) => .ok (snapItem p i.quantity :: tl, p.price * (i.quantity : ℚ) + s)

/-- Boolean form of a single line item passing both checks of the
validation loop against the current database. -/
def itemOkB (db : Db) (i : ReqItem) : Bool :=
  match findProduct db i.product with
  | none => false
  | some p => !(decide (p.stock < (i.quantity : ℤ)))

/-- POST /orders handler: validate and snapshot every item, build the order
with `calculateTotals` and the initial `pending` status entry, save it, and
only then run the stock-decrement loop (`$inc` by `-quantity` per request
item).  `oid` stands for the Mongo-generated id of the new document. -/
def createOrder (pol : TotalsPolicy) (db : Db) (userId oid : Nat)
    (req : CreateOrderRequest) (now : Nat) : Db × Except AppError Order :=
  match buildOrderItems db req.items with
  | .error e => (db, .error e)
  | .ok (orderItems, itemsPrice) =>
    let o : Order :=
      { id := oid, orderNumber := "", user := userId, items := orderItems,
        shippingAddress := req.shippingAddress, paymentMethod := req.paymentMethod,
        notes := req.notes, itemsPrice := itemsPrice,
        shippingPrice := 0, taxPrice := 0, totalPrice := 0,
        status := "pending", statusHistory := [],
        paymentResult := PaymentResult.empty, paymentStatus := "pending",
        isPaid := false, paidAt := none, trackingNumber := none }
    let o := o.calculateTotals pol
    let o := o.addStatusUpdate "pending" "Order placed successfully" now
    let db1 : Db := { db with orders := db.orders ++ [o] }
    let db2 := db1.incStocks (req.items.map (fun i => (i.product, -(i.quantity : ℤ))))
    (db2, .ok o)

/-- PUT /orders/:id/cancel handler: 404 when absent, 403 when not owned,
Conflict (400) outside pending/confirmed; otherwise append the `cancelled`
status entry, save, and restore stock (`$inc` by `+quantity` per line
item). -/
def cancelOrder (db : Db) (userId oid now : Nat) : Db × Except AppError Order :=
  match findOrder db oid with
  | none => (db, .error ⟨"Order not found", 404⟩)
  | some o =>
    if o.user = userId then
      if o.status = "pending" ∨ o.status = "confirmed" then
        let o2 := o.addStatusUpdate "cancelled" "Cancelled by user" now
        let db1 := db.updateOrder o2
        let db2 := db1.incStocks (o.items.map (fun it => (it.product, (it.quantity : ℤ))))
        (db2, .ok o2)
      else (db, .error ⟨"Order cannot be cancelled at this stage", 400⟩)
    else (db, .error ⟨"Not authorized to cancel this order", 403⟩)

/-- JavaScript `Math.round` (round half towards +∞) of an exact rational. -/
def jsRound (x : ℚ) : ℤ := ⌊x + 1 / 2⌋

/-- Amount in minor currency units (paise) sent to the gateway:
`Math.round(amount * 100)`. -/
def toMinorUnits (amount : ℚ) : ℤ := jsRound (amount * 100)

/-- Authenticated caller as attached by the auth middleware. -/
structure Caller where
  id : Nat
  role : String
  deriving Repr, DecidableEq

/-- The body of the `razorpay.orders.create` call. -/
structure GatewayOrderReq where
  amountMinor : ℤ
  currency : String
  receipt : String
  deriving Repr, DecidableEq

/-- POST /payments/create-razorpay-order handler: 404 when absent, 403 when
not owned; otherwise call the gateway with `Math.round(totalPrice * 100)`
paise and store the returned gateway order id.  `gatewayOrderId` stands for
the id minted by the gateway. -/
def createRazorpayOrder (db : Db) (caller : Caller) (oid : Nat)
    (gatewayOrderId : String) : Db × Except AppError (GatewayOrderReq × Order) :=
  match findOrder db oid with
  | none => (db, .error ⟨"Order not found", 404⟩)
  | some o =>
    if o.user = caller.id then
      let g : GatewayOrderReq := ⟨toMinorUnits o.totalPrice, "INR", o.orderNumber⟩
      let o2 := { o with paymentResult := { o.paymentResult with razorpayOrderId := gatewayOrderId } }
      (db.updateOrder o2, .ok (g, o2))
    else (db, .error ⟨"Not authorized", 403⟩)

/-- The order mutation of a successful verify-payment: record the payment
result, set paymentStatus/isPaid/paidAt, then append the `confirmed`
status entry. -/
def verifiedOrder (o : Order) (rzpOrderId rzpPaymentId rzpSignature : String)
    (now : Nat) : Order :=
  ({ o with
      paymentResult := ⟨rzpPaymentId, "completed", rzpOrderId, rzpPaymentId, rzpSignature⟩
      paymentStatus := "completed"
      isPaid := true
      paidAt := some now }).addStatusUpdate "confirmed" "Payment completed successfully" now

/-- POST /payments/verify-payment handler: 404 when absent, 403 when not
owned; recompute HMAC-SHA256 over `razorpayOrderId + "|" + razorpayPaymentId`
with the Razorpay key secret, reject on mismatch with 400, and on match
apply `verifiedOrder` and save it. -/
def verifyPayment (hmac : String → String → String) (secret : String)
    (db : Db) (userId oid : Nat) (rzpOrderId rzpPaymentId rzpSignature : String)
    (now : Nat) : Db × Except AppError Order :=
  match findOrder db oid with
  | none => (db, .error ⟨"Order not found", 404⟩)
  | some o =>
    if o.user = userId then
      let body := rzpOrderId ++ "|" ++ rzpPaymentId
      if hmac secret body = rzpSignature then
        let o3 := verifiedOrder o rzpOrderId rzpPaymentId rzpSignature now
        (db.updateOrder o3, .ok o3)
      else (db, .error ⟨"Invalid payment signature", 400⟩)
    else (db, .error ⟨"Not authorized", 403⟩)

/-- A webhook request: the exact raw body string the signature is computed
over, together with the event type and the order id carried in
`payload.payment.entity.notes.orderId`. -/
structure WebhookReq where
  raw : String
  event : String
  orderId : Nat
  deriving Repr, DecidableEq

/-- The event dispatch of the webhook handler, run after the signature
check: `payment.captured` marks the referenced order paid and appends a
`confirmed` entry, `payment.failed` sets paymentStatus failed and appends a
`pending` entry, a missing order is a no-op, any other event is logged and
ignored. -/
def webhookStep (db : Db) (event : String) (oid now : Nat) : Db :=
  if event = "payment.captured" then
    match findOrder db oid with
    | none => db
    | some o =>
      let o2 := { o with paymentStatus := "completed", isPaid := true, paidAt := some now }
      db.updateOrder (o2.addStatusUpdate "confirmed" "Payment captured via webhook" now)
  else if event = "payment.failed" then
    match findOrder db oid with
    | none => db
    | some o =>
      let o2 := { o with paymentStatus := "failed" }
      db.updateOrder (o2.addStatusUpdate "pending" "Payment failed" now)
  else db

/-- POST /payments/webhook handler: verify HMAC-SHA256 over the raw body
with the webhook secret against the `x-razorpay-signature` header, reject
with 400 on mismatch, otherwise dispatch on the event and answer 200.  The
second component is the HTTP status of the response. -/
def webhookHandler (hmac : String → String → String) (secret : String)
    (db : Db) (r : WebhookReq) (signature : String) (now : Nat) : Db × Nat :=
  if hmac secret r.raw = signature then (webhookStep db r.event r.orderId now, 200)
  else (db, 400)

/-- The `razorpay.payments.refund` call and response data of the refund
handler. -/
structure RefundOutcome where
  paymentId : String
  amountMinor : ℤ
  refundId : String
  order : Order
  deriving Repr, DecidableEq

/-- POST /payments/refund handler.  The route's middleware chain is
`authenticate` only — the caller's role is never consulted — so the caller
is passed in but unused beyond authentication.  404 when the order is
absent, 400 when it is not paid; otherwise call the gateway refund API with
`Math.round(amount * 100)` paise on the stored razorpayPaymentId, set
paymentStatus to refunded and append a `cancelled` entry carrying the
refund id.  `refundId` stands for the id returned by the gateway. -/
def refundHandler (db : Db) (caller : Caller) (oid : Nat) (amount : ℚ)
    (refundId : String) (now : Nat) : Db × Except AppError RefundOutcome :=
  match findOrder db oid with
  | none => (db, .error ⟨"Order not found", 404⟩)
  | some o =>
    if o.isPaid then
      let o2 := { o with paymentStatus := "refunded" }
      let o3 := o2.addStatusUpdate "cancelled" ("Refund processed: " ++ refundId) now
      (db.updateOrder o3,
       .ok { paymentId := o.paymentResult.razorpayPaymentId,
             amountMinor := toMinorUnits amount, refundId := refundId, order := o3 })
    else (db, .error ⟨"Order is not paid", 400⟩)

/-- One element of the user's refreshTokens array: {token}. -/
structure TokenObj where
  token : String
  deriving Repr, DecidableEq

/-- User document restricted to the fields the token routes touch. -/
structure AuthUser where
  id : Nat
  refreshTokens : List TokenObj
  deriving Repr, DecidableEq

/-- The verifyRefreshToken middleware: require a token, `jwt.verify` it
(modelled by the uninterpreted `decode`, none = verification failure),
resolve the user, and accept only when the token occurs in the user's
refreshTokens array; every failure is a 401.  The empty string models a
missing/falsy body field. -/
def verifyRefreshToken (decode : String → Option Nat) (users : List AuthUser)
    (tok : String) : Except Nat AuthUser :=
  if tok = "" then .error 401
  else
    match decode tok with
    | none => .error 401
    | some uid =>
      match users.find? (fun u => u.id = uid) with
      | none => .error 401
      | some u =>
        if u.refreshTokens.any (fun t => t.token = tok) then .ok u
        else .error 401

/-- POST /auth/refresh handler body (after verifyRefreshToken succeeded):
filter the old refresh token out of the array and push the newly generated
one. -/
def refreshHandler (u : AuthUser) (oldTok newTok : String) : AuthUser :=
  { u with refreshTokens :=
      (u.refreshTokens.filter (fun t => t.token ≠ oldTok)) ++ [⟨newTok⟩] }

/-- POST /auth/logout handler body: with a (truthy) refreshToken in the
body, filter that one token out; otherwise clear the whole array.  The
empty string models a missing/falsy body field. -/
def logoutHandler (u : AuthUser) (tok : String) : AuthUser :=
  if tok = "" then { u with refreshTokens := [] }
  else { u with refreshTokens := u.refreshTokens.filter (fun t => t.token ≠ tok) }

/-- The PUT /products/:id request body after `validateUpdateProduct`: every
updatable field is optional, restricted here to the product fields this
model carries; `Object.assign` overwrites exactly the fields present. -/
structure ProductPatch where
  name : Option String
  price : Option ℚ
  stock : Option ℤ
  images : Option (List String)
  deriving Repr, DecidableEq

/-- `Object.assign(product, req.body)`: fields present in the body
overwrite the document, absent fields are untouched. -/
def Product.applyPatch (p : Product) (b : ProductPatch) : Product :=
  { p with
      name := b.name.getD p.name
      price := b.price.getD p.price
      stock := b.stock.getD p.stock
      images := b.images.getD p.images }

/-- `product.save()` on an existing document: replace the stored product
with the same id. -/
def Db.saveProduct (db : Db) (p : Product) : Db :=
  { db with products := db.products.map (fun x => if x.id = p.id then p else x) }

/-- PUT /products/:id handler (products router, concatenated into
src/server/routes/auth.js): resolve the product (404 when absent), allow
only the selling user or an admin (403 otherwise), then `Object.assign`
the validated body onto the document and save it. -/
def updateProduct (db : Db) (caller : Caller) (pid : Nat) (body : ProductPatch) :
    Db × Except AppError Product :=
  match findProduct db pid with
  | none => (db, .error ⟨"Product not found", 404⟩)
  | some p =>
    if p.seller = caller.id ∨ caller.role = "admin" then
      let p2 := p.applyPatch body
      (db.saveProduct p2, .ok p2)
    else (db, .error ⟨"Not authorized to update this product", 403⟩)

/-- Signed sum of the deltas a `$inc` sequence applies to one product id. -/
def sumFor (l : List (Nat × ℤ)) (pid : Nat) : ℤ :=
  (l.map (fun x => if x.1 = pid then x.2 else 0)).sum

/-- Sample totals policy: flat 50 shipping below 500, 10 percent tax. -/
def pol0 : TotalsPolicy := ⟨500, 50, 1 / 10⟩

/-- Sample product: id 1, price 100, stock 5, sold by user 50. -/
def prodA : Product := ⟨1, "Widget", 100, 5, ["img.png"], 50⟩

/-- Sample database holding only `prodA`. -/
def db0 : Db := ⟨[prodA], []⟩

/-- Sample creation request: two units of product 1. -/
def req0 : CreateOrderRequest := ⟨[⟨1, 2⟩], "addr", "razorpay", ""⟩

/-- The order the POST /orders handler builds from `req0` against `db0`. -/
def ord0 : Order :=
  { id := 42, orderNumber := "", user := 7,
    items := [⟨1, "Widget", "img.png", 100, 2⟩],
    shippingAddress := "addr", paymentMethod := "razorpay", notes := "",
    itemsPrice := 200, shippingPrice := 50, taxPrice := 20, totalPrice := 270,
    status := "pending",
    statusHistory := [⟨"pending", "Order placed successfully", 3⟩],
    paymentResult := PaymentResult.empty, paymentStatus := "pending",
    isPaid := false, paidAt := none, trackingNumber := none }

/-- Creation request with two separate line items for the same product,
each individually within stock but jointly above it. -/
def reqDup : CreateOrderRequest := ⟨[⟨1, 3⟩, ⟨1, 3⟩], "addr", "cod", ""⟩

/-- Creation request whose first item references a missing product and
whose second item exceeds the stock of product 1. -/
def req4 : CreateOrderRequest := ⟨[⟨2, 1⟩, ⟨1, 10⟩], "addr", "cod", ""⟩

/-- Creation request with a single item exceeding the stock of product 1. -/
def req4b : CreateOrderRequest := ⟨[⟨1, 10⟩], "addr", "cod", ""⟩

/-- An all-default order used as the base of the sample orders. -/
def baseOrder : Order :=
  { id := 0, orderNumber := "", user := 0, items := [], shippingAddress := "",
    paymentMethod := "", notes := "", itemsPrice := 0, shippingPrice := 0,
    taxPrice := 0, totalPrice := 0, status := "pending", statusHistory := [],
    paymentResult := PaymentResult.empty, paymentStatus := "pending",
    isPaid := false, paidAt := none, trackingNumber := none }

/-- Sample pending order of user 1 over two units of product 1. -/
def ord5 : Order :=
  { baseOrder with
      id := 10
      user := 1
      items := [⟨1, "Widget", "img.png", 100, 2⟩]
      itemsPrice := 200
      statusHistory := [⟨"pending", "Order placed successfully", 0⟩] }

/-- Database for the cancellation sample: `prodA` plus `ord5`. -/
def db5 : Db := ⟨[prodA], [ord5]⟩

/-- Sample unpaid order of user 3 awaiting payment verification. -/
def ord2 : Order := { baseOrder with id := 11, user := 3 }

/-- Database for the verify-payment sample. -/
def db2d : Db := ⟨[], [ord2]⟩

/-- Sample unpaid order referenced by the webhook samples. -/
def ord3 : Order := { baseOrder with id := 7, user := 2 }

/-- Database for the webhook samples. -/
def db3 : Db := ⟨[], [ord3]⟩

/-- Sample paid order carrying a gateway payment id. -/
def ordPaid : Order :=
  { baseOrder with
      id := 12
      user := 5
      isPaid := true
      paymentStatus := "completed"
      paidAt := some 4
      paymentResult := ⟨"pay_9", "completed", "rzo_1", "pay_9", "sig_1"⟩
      status := "confirmed"
      statusHistory := [⟨"pending", "Order placed successfully", 0⟩,
                        ⟨"confirmed", "Payment completed successfully", 4⟩] }

/-- Database for the refund samples. -/
def db6 : Db := ⟨[], [ordPaid]⟩

/-- A caller authenticated with the non-admin `user` role. -/
def plainUser : Caller := ⟨99, "user"⟩

/-- Sample order with totalPrice 250.50 owned by user 4. -/
def ordTot : Order := { baseOrder with id := 13, user := 4, totalPrice := 501 / 2 }

/-- Database for the minor-units sample. -/
def db8 : Db := ⟨[], [ordTot]⟩

/-- Stand-in for HMAC-SHA256 in the concrete samples: key and message
concatenated with a separator (any concrete function works, the theorems
hold for every `hmac`). -/
def hmacDemo (key msg : String) : String := key ++ "#" ++ msg

/-- Webhook request sample: payment.captured for order 7. -/
def capReq : WebhookReq := ⟨"rawbody", "payment.captured", 7⟩

/-- The matching signature for `capReq` under `hmacDemo` and secret ws. -/
def capSig : String := "ws#rawbody"

/-- The order state the refund handler writes for `ordPaid` with refund id
rfnd_1 at time 8. -/
def ordRefunded : Order :=
  ({ ordPaid with paymentStatus := "refunded" }).addStatusUpdate
    "cancelled" "Refund processed: rfnd_1" 8

/-- Sample user with two active refresh tokens. -/
def userU : AuthUser := ⟨21, [⟨"t1"⟩, ⟨"t2"⟩]⟩

/-- Stand-in for `jwt.verify` in the concrete samples: both stored tokens
and the fresh token `t3` decode to user 21. -/
def decodeDemo (s : String) : Option Nat :=
  if s = "t1" ∨ s = "t2" ∨ s = "t3" then some 21 else none

lemma findProduct_id {db : Db} {pid : Nat} {p : Product}
    (h : findProduct db pid = some p) : p.id = pid := by
  have := List.find?_some h
  simpa using this

lemma find?_map_of_id (f : Product → Product) (hf : ∀ p, (f p).id = p.id)
    (pid : Nat) (l : List Product) :
    (l.map f).find? (fun p => p.id = pid) =
      (l.find? (fun p => p.id = pid)).map f := by
  induction l with
  | nil => rfl
  | cons a l ih =>
    by_cases h : a.id = pid
    · rw [List.map_cons,
        List.find?_cons_of_pos _ (by simp [hf a, h]),
        List.find?_cons_of_pos _ (by simp [h]), Option.map_some']
    · rw [List.map_cons,
        List.find?_cons_of_neg _ (by simp [hf a, h]),
        List.find?_cons_of_neg _ (by simp [h]), ih]

lemma findProduct_incStock (db : Db) (q : Nat) (d : ℤ) (pid : Nat) :
    findProduct (db.incStock q d) pid =
      (findProduct db pid).map
        (fun p => if p.id = q then { p with stock := p.stock + d } else p) :=
  find?_map_of_id _ (fun p => by by_cases hq : p.id = q <;> simp [hq]) pid db.products

lemma orders_incStock (db : Db) (q : Nat) (d : ℤ) :
    (db.incStock q d).orders = db.orders := rfl

lemma orders_incStocks (l : List (Nat × ℤ)) (db : Db) :
    (db.incStocks l).orders = db.orders := by
  induction l generalizing db with
  | nil => rfl
  | cons x l ih => exact ih (db.incStock x.1 x.2)

lemma findProduct_updateOrder (db : Db) (o : Order) (pid : Nat) :
    findProduct (db.updateOrder o) pid = findProduct db pid := rfl

lemma findProduct_setOrders (db : Db) (os : List Order) (pid : Nat) :
    findProduct { db with orders := os } pid = findProduct db pid := rfl

lemma orders_updateProduct (db : Db) (caller : Caller) (pid : Nat)
    (body : ProductPatch) :
    ((updateProduct db caller pid body).1).orders = db.orders := by
  unfold updateProduct
  rcases findProduct db pid with _ | p
  · rfl
  · dsimp only
    split
    · rfl
    · rfl

lemma sumFor_nil (pid : Nat) : sumFor [] pid = 0 := rfl

lemma sumFor_cons (x : Nat × ℤ) (l : List (Nat × ℤ)) (pid : Nat) :
    sumFor (x :: l) pid = (if x.1 = pid then x.2 else 0) + sumFor l pid := by
  simp [sumFor]

lemma findProduct_incStocks (l : List (Nat × ℤ)) (db : Db) (pid : Nat) :
    findProduct (db.incStocks l) pid =
      (findProduct db pid).map (fun p => { p with stock := p.stock + sumFor l pid }) := by
  induction l generalizing db with
  | nil =>
    have e : Db.incStocks db [] = db := rfl
    rw [e]
    simp only [sumFor_nil]
    rcases h : findProduct db pid with _ | p
    · simp
    · rw [Option.map_some']
      congr 1
      cases p
      simp
  | cons x l ih =>
    have step : Db.incStocks db (x :: l) = Db.incStocks (db.incStock x.1 x.2) l := rfl
    rw [step, ih, findProduct_incStock]
    rcases h : findProduct db pid with _ | p
    · simp
    · have hid : p.id = pid := findProduct_id h
      rw [Option.map_some', Option.map_some']
      congr 1
      by_cases hq : x.1 = pid
      · have : p.id = x.1 := by rw [hid, hq]
        simp only [if_pos this]
        cases p
        simp [sumFor_cons, hq, add_assoc]
      · have : ¬ p.id = x.1 := by rw [hid]; exact fun h2 => hq h2.symm
        simp only [if_neg this]
        cases p
        simp [sumFor_cons, hq]

lemma itemOkB_iff (db : Db) (i : ReqItem) :
    itemOkB db i = true ↔
      ∃ p, findProduct db i.product = some p ∧ ¬ p.stock < (i.quantity : ℤ) := by
  unfold itemOkB
  rcases hp : findProduct db i.product with _ | p <;> simp [hp]

lemma buildOrderItems_ok (db : Db) :
    ∀ (items : List ReqItem) (ois : List OrderItem) (total : ℚ),
      buildOrderItems db items = .ok (ois, total) →
      List.Forall₂ (fun (i : ReqItem) (oi : OrderItem) =>
        ∃ p, findProduct db i.product = some p ∧ ¬ p.stock < (i.quantity : ℤ) ∧
          oi = snapItem p i.quantity) items ois
      ∧ total = (ois.map (fun oi => oi.price * (oi.quantity : ℚ))).sum := by
  intro items
  induction items with
  | nil =>
    intro ois total h
    simp only [buildOrderItems, Except.ok.injEq, Prod.mk.injEq] at h
    obtain ⟨h1, h2⟩ := h
    subst h1; subst h2
    exact ⟨List.Forall₂.nil, by simp⟩
  | cons i rest ih =>
    intro ois total h
    rcases hp : findProduct db i.product with _ | p
    · simp [buildOrderItems, hp] at h
    · by_cases hs : p.stock < (i.quantity : ℤ)
      · simp [buildOrderItems, hp, hs] at h
      · rcases hr : buildOrderItems db rest with e | pr
        · simp [buildOrderItems, hp, hs, hr] at h
        · obtain ⟨tl, s⟩ := pr
          simp only [buildOrderItems, hp, hs, if_false, hr, Except.ok.injEq,
            Prod.mk.injEq] at h
          obtain ⟨h1, h2⟩ := h
          subst h1; subst h2
          obtain ⟨ihf, ihs⟩ := ih tl s hr
          refine ⟨List.Forall₂.cons ⟨p, hp, hs, rfl⟩ ihf, ?_⟩
          simp [ihs, snapItem]

lemma buildOrderItems_ok_all (db : Db) :
    ∀ (items : List ReqItem) (ois : List OrderItem) (total : ℚ),
      buildOrderItems db items = .ok (ois, total) →
      ∀ i ∈ items, itemOkB db i = true := by
  intro items
  induction items with
  | nil => intro ois total _ i hi; cases hi
  | cons j rest ih =>
    intro ois total h i hi
    rcases hp : findProduct db j.product with _ | p
    · simp [buildOrderItems, hp] at h
    · by_cases hs : p.stock < (j.quantity : ℤ)
      · simp [buildOrderItems, hp, hs] at h
      · rcases hr : buildOrderItems db rest with e | pr
        · simp [buildOrderItems, hp, hs, hr] at h
        · rcases List.mem_cons.mp hi with rfl | hmem
          · exact (itemOkB_iff db i).mpr ⟨p, hp, hs⟩
          · exact ih pr.1 pr.2 hr i hmem

lemma buildOrderItems_total_ok (db : Db) :
    ∀ (items : List ReqItem), (∀ i ∈ items, itemOkB db i = true) →
      ∃ r, buildOrderItems db items = .ok r := by
  intro items
  induction items with
  | nil => exact fun _ => ⟨([], 0), rfl⟩
  | cons i rest ih =>
    intro h
    obtain ⟨p, hp, hs⟩ := (itemOkB_iff db i).1 (h i (List.mem_cons_self i rest))
    obtain ⟨⟨tl, s⟩, hr⟩ := ih (fun j hj => h j (List.mem_cons_of_mem i hj))
    exact ⟨(snapItem p i.quantity :: tl, p.price * (i.quantity : ℚ) + s),
      by simp [buildOrderItems, hp, hs, hr]⟩

lemma buildOrderItems_append_notFound (db : Db) :
    ∀ (pre : List ReqItem) (i : ReqItem) (post : List ReqItem),
      (∀ j ∈ pre, itemOkB db j = true) → findProduct db i.product = none →
      buildOrderItems db (pre ++ i :: post) = .error (notFoundErr i.product) := by
  intro pre
  induction pre with
  | nil => intro i post _ hi; simp [buildOrderItems, hi]
  | cons j pre ih =>
    intro i post hpre hi
    obtain ⟨p, hp, hs⟩ := (itemOkB_iff db j).1 (hpre j (List.mem_cons_self j pre))
    have hrest := ih i post (fun k hk => hpre k (List.mem_cons_of_mem j hk)) hi
    simp [buildOrderItems, hp, hs, hrest]

lemma buildOrderItems_append_insuff (db : Db) :
    ∀ (pre : List ReqItem) (i : ReqItem) (post : List ReqItem) (p : Product),
      (∀ j ∈ pre, itemOkB db j = true) → findProduct db i.product = some p →
      p.stock < (i.quantity : ℤ) →
      buildOrderItems db (pre ++ i :: post) = .error (insuffErr p.name) := by
  intro pre
  induction pre with
  | nil => intro i post p _ hp hs; simp [buildOrderItems, hp, hs]
  | cons j pre ih =>
    intro i post p hpre hp hs
    obtain ⟨q, hq, hqs⟩ := (itemOkB_iff db j).1 (hpre j (List.mem_cons_self j pre))
    have hrest := ih i post p (fun k hk => hpre k (List.mem_cons_of_mem j hk)) hp hs
    simp [buildOrderItems, hq, hqs, hrest]

/-- C1: every order-creation request resolves each item's product (failing
with NotFound when absent once all earlier items passed), fails with
InsufficientStock when a product's stock is below the item's quantity (once
all earlier items passed), and on success every line item snapshots the
product's name, price and image, `itemsPrice` is the sum of snapshot price
times quantity, and a later PUT /products/:id update — a price change
included — leaves the stored orders untouched. -/
theorem createOrder_contract (pol : TotalsPolicy) (db : Db) (uid oid : Nat)
    (req : CreateOrderRequest) (now : Nat) :
    (∀ db2 o, createOrder pol db uid oid req now = (db2, .ok o) →
      List.Forall₂ (fun (i : ReqItem) (oi : OrderItem) =>
        ∃ p, findProduct db i.product = some p ∧ ¬ p.stock < (i.quantity : ℤ) ∧
          oi = snapItem p i.quantity) req.items o.items
      ∧ o.itemsPrice = (o.items.map (fun oi => oi.price * (oi.quantity : ℚ))).sum
      ∧ ∀ caller pid body, ((updateProduct db2 caller pid body).1).orders = db2.orders)
    ∧ (∀ pre i post, req.items = pre ++ i :: post →
        (∀ j ∈ pre, itemOkB db j = true) → findProduct db i.product = none →
        (createOrder pol db uid oid req now).2 = .error (notFoundErr i.product))
    ∧ (∀ pre i post p, req.items = pre ++ i :: post →
        (∀ j ∈ pre, itemOkB db j = true) → findProduct db i.product = some p →
        p.stock < (i.quantity : ℤ) →
        (createOrder pol db uid oid req now).2 = .error (insuffErr p.name)) := by
  refine ⟨?_, ?_, ?_⟩
  · intro db2 o h
    rcases hb : buildOrderItems db req.items with e | pr
    · simp [createOrder, hb] at h
    · obtain ⟨ois, total⟩ := pr
      simp only [createOrder, hb, Prod.mk.injEq, Except.ok.injEq] at h
      obtain ⟨hdb, ho⟩ := h
      obtain ⟨hf, hsum⟩ := buildOrderItems_ok db req.items ois total hb
      have hitems : o.items = ois := by
        rw [← ho]; simp [Order.addStatusUpdate, Order.calculateTotals]
      have hprice : o.itemsPrice = total := by
        rw [← ho]; simp [Order.addStatusUpdate, Order.calculateTotals]
      refine ⟨hitems ▸ hf, ?_, fun caller pid body => orders_updateProduct db2 caller pid body⟩
      rw [hprice, hitems]
      exact hsum
  · intro pre i post hsplit hpre hi
    have hb := buildOrderItems_append_notFound db pre i post hpre hi
    rw [← hsplit] at hb
    simp [createOrder, hb]
  · intro pre i post p hsplit hpre hp hs
    have hb := buildOrderItems_append_insuff db pre i post p hpre hp hs
    rw [← hsplit] at hb
    simp [createOrder, hb]

/-- Witness for C1 at a concrete request: two units of the stock-5
price-100 product give an order whose itemsPrice equals the snapshot sum
200. -/
theorem createOrder_contract_witness :
    (∃ db2, createOrder pol0 db0 7 42 req0 3 = (db2, .ok ord0)) ∧
    ord0.itemsPrice = (ord0.items.map (fun oi => oi.price * (oi.quantity : ℚ))).sum := by
  have hc : createOrder pol0 db0 7 42 req0 3 =
      (⟨[⟨1, "Widget", 100, 3, ["img.png"], 50⟩], [ord0]⟩, .ok ord0) := by
    norm_num [createOrder, buildOrderItems, findProduct, pol0, db0, prodA, req0,
      ord0, snapItem, Order.calculateTotals, Order.addStatusUpdate, Db.incStocks,
      Db.incStock, PaymentResult.empty, baseOrder, List.find?]
  exact ⟨⟨_, hc⟩, ((createOrder_contract pol0 db0 7 42 req0 3).1 _ ord0 hc).2.1⟩

/-- C4 counterexample: in `req4` the second item exceeds product 1's stock
(so the claim's premise holds), yet the request fails with the NotFound
error of the first item, not with InsufficientStock. -/
theorem createOrder_mixed_failure_counterexample :
    (∃ i ∈ req4.items, ∃ p, findProduct db0 i.product = some p ∧
      p.stock < (i.quantity : ℤ)) ∧
    (createOrder pol0 db0 1 9 req4 0).2 = .error (notFoundErr 2) ∧
    (notFoundErr 2).status = 404 ∧
    ∀ name, notFoundErr 2 ≠ insuffErr name := by
  refine ⟨?_, by decide, by decide, ?_⟩
  · exact ⟨⟨1, 10⟩, by decide, prodA, by decide, by decide⟩
  · intro name
    simp [notFoundErr, insuffErr]

/-- C4 (amended): every order-creation request containing an under-stocked
item fails, leaving the database exactly as it was — no stock change, no
persisted order; the error is InsufficientStock whenever every item before
the failing one passed its checks, and the NotFound error of an earlier
absent product otherwise. -/
theorem createOrder_error_atomic (pol : TotalsPolicy) (db : Db) (uid oid : Nat)
    (req : CreateOrderRequest) (now : Nat)
    (h : ∃ i ∈ req.items, ∃ p, findProduct db i.product = some p ∧
      p.stock < (i.quantity : ℤ)) :
    (∃ e, createOrder pol db uid oid req now = (db, .error e))
    ∧ (∀ pre i post p, req.items = pre ++ i :: post →
        (∀ j ∈ pre, itemOkB db j = true) → findProduct db i.product = some p →
        p.stock < (i.quantity : ℤ) →
        (createOrder pol db uid oid req now).2 = .error (insuffErr p.name))
    ∧ (∀ pre i post, req.items = pre ++ i :: post →
        (∀ j ∈ pre, itemOkB db j = true) → findProduct db i.product = none →
        (createOrder pol db uid oid req now).2 = .error (notFoundErr i.product)) := by
  obtain ⟨i, hi, p, hp, hs⟩ := h
  have hbad : itemOkB db i = false := by simp [itemOkB, hp, hs]
  rcases hb : buildOrderItems db req.items with e2 | pr
  · refine ⟨⟨e2, by simp [createOrder, hb]⟩, ?_, ?_⟩
    · intro pre j post q hsplit hpre hq hqs
      have hb2 := buildOrderItems_append_insuff db pre j post q hpre hq hqs
      rw [← hsplit, hb] at hb2
      have he : e2 = insuffErr q.name := by injection hb2
      simp [createOrder, hb, he]
    · intro pre j post hsplit hpre hj
      have hb2 := buildOrderItems_append_notFound db pre j post hpre hj
      rw [← hsplit, hb] at hb2
      have he : e2 = notFoundErr j.product := by injection hb2
      simp [createOrder, hb, he]
  · obtain ⟨ois, total⟩ := pr
    have := buildOrderItems_ok_all db req.items ois total hb i hi
    rw [hbad] at this
    cases this

/-- Witness for C4's amended theorem: requesting ten units of the stock-5
product fails with InsufficientStock and leaves the database unchanged. -/
theorem createOrder_error_atomic_witness :
    (∃ i ∈ req4b.items, ∃ p, findProduct db0 i.product = some p ∧
      p.stock < (i.quantity : ℤ)) ∧
    (∃ e, createOrder pol0 db0 1 9 req4b 0 = (db0, .error e)) ∧
    (createOrder pol0 db0 1 9 req4b 0).2 = .error (insuffErr "Widget") := by
  have hpre : ∃ i ∈ req4b.items, ∃ p, findProduct db0 i.product = some p ∧
      p.stock < (i.quantity : ℤ) :=
    ⟨⟨1, 10⟩, by decide, prodA, by decide, by decide⟩
  have h := createOrder_error_atomic pol0 db0 1 9 req4b 0 hpre
  exact ⟨hpre, h.1, h.2.1 [] ⟨1, 10⟩ [] prodA rfl (by simp) (by decide) (by decide)⟩

/-- C10: the stock check is per line item against the stock read from the
database at validation time, and all decrements happen only after every
check passed: whenever each line individually fits the product's current
stock the creation succeeds — duplicate references to one product
included — and afterwards each product's stock has moved by the signed sum
of all its requested quantities. -/
theorem createOrder_per_line_check (pol : TotalsPolicy) (db : Db) (uid oid : Nat)
    (req : CreateOrderRequest) (now : Nat)
    (h : ∀ i ∈ req.items, itemOkB db i = true) :
    ∃ db2 o, createOrder pol db uid oid req now = (db2, .ok o) ∧
      ∀ pid p, findProduct db pid = some p →
        findProduct db2 pid = some
          { p with stock := p.stock +
              sumFor (req.items.map (fun i => (i.product, -(i.quantity : ℤ)))) pid } := by
  obtain ⟨⟨ois, total⟩, hb⟩ := buildOrderItems_total_ok db req.items h
  simp only [createOrder, hb]
  refine ⟨_, _, rfl, ?_⟩
  intro pid p hp
  rw [findProduct_incStocks, findProduct_setOrders, hp, Option.map_some']

/-- Witness for C10: two lines of three units each against stock 5 pass the
per-line checks, the creation succeeds, and the final stock is the
oversold value -1. -/
theorem createOrder_per_line_check_witness :
    (∀ i ∈ reqDup.items, itemOkB db0 i = true) ∧
    (∃ db2 o, createOrder pol0 db0 7 43 reqDup 0 = (db2, .ok o) ∧
      ∀ pid p, findProduct db0 pid = some p →
        findProduct db2 pid = some
          { p with stock := p.stock +
              sumFor (reqDup.items.map (fun i => (i.product, -(i.quantity : ℤ)))) pid }) ∧
    (findProduct (createOrder pol0 db0 7 43 reqDup 0).1 1).map Product.stock = some (-1) := by
  refine ⟨by decide, ?_, by decide⟩
  exact createOrder_per_line_check pol0 db0 7 43 reqDup 0 (by decide)

/-- C5: for an order that exists and is cancelled by its owner,
cancellation succeeds exactly from the pending or confirmed status — the
`cancelled` entry is appended to the intact history and every product's
stock grows by the summed quantities of the order's line items referencing
it — while any other status yields the Conflict error (400) and leaves the
database, stock included, unchanged. -/
theorem cancelOrder_spec (db : Db) (uid oid now : Nat) (o : Order)
    (ho : findOrder db oid = some o) (hu : o.user = uid) :
    ((o.status = "pending" ∨ o.status = "confirmed") →
      (cancelOrder db uid oid now).2 =
        .ok (o.addStatusUpdate "cancelled" "Cancelled by user" now)
      ∧ (o.addStatusUpdate "cancelled" "Cancelled by user" now).statusHistory =
          o.statusHistory ++ [⟨"cancelled", "Cancelled by user", now⟩]
      ∧ ∀ pid p, findProduct db pid = some p →
          findProduct (cancelOrder db uid oid now).1 pid = some
            { p with stock := p.stock +
                sumFor (o.items.map (fun it => (it.product, (it.quantity : ℤ)))) pid })
    ∧ (o.status ≠ "pending" → o.status ≠ "confirmed" →
        cancelOrder db uid oid now =
          (db, .error ⟨"Order cannot be cancelled at this stage", 400⟩)) := by
  constructor
  · intro hst
    have hred : cancelOrder db uid oid now =
        ((db.updateOrder (o.addStatusUpdate "cancelled" "Cancelled by user" now)).incStocks
            (o.items.map (fun it => (it.product, (it.quantity : ℤ)))),
         .ok (o.addStatusUpdate "cancelled" "Cancelled by user" now)) := by
      simp only [cancelOrder, ho]
      rw [if_pos hu, if_pos hst]
    refine ⟨by rw [hred], by simp [Order.addStatusUpdate], ?_⟩
    intro pid p hp
    have h1 : (cancelOrder db uid oid now).1 =
        (db.updateOrder (o.addStatusUpdate "cancelled" "Cancelled by user" now)).incStocks
          (o.items.map (fun it => (it.product, (it.quantity : ℤ)))) := by
      rw [hred]
    rw [h1, findProduct_incStocks, findProduct_updateOrder, hp, Option.map_some']
  · intro h1 h2
    have hst : ¬ (o.status = "pending" ∨ o.status = "confirmed") := by
      rintro (h | h)
      · exact h1 h
      · exact h2 h
    simp only [cancelOrder, ho]
    rw [if_pos hu, if_neg hst]

/-- Witness for C5: user 1 cancels the pending order 10 over two units of
product 1; the `cancelled` entry is appended and the stock returns from 5
to 7. -/
theorem cancelOrder_spec_witness :
    findOrder db5 10 = some ord5 ∧
    (cancelOrder db5 1 10 7).2 =
      .ok (ord5.addStatusUpdate "cancelled" "Cancelled by user" 7) ∧
    (findProduct (cancelOrder db5 1 10 7).1 1).map Product.stock = some 7 := by
  refine ⟨rfl, ?_, by decide⟩
  exact ((cancelOrder_spec db5 1 10 7 ord5 rfl rfl).1 (Or.inl rfl)).1

/-- C2: for an order verified by its owner, the expected signature is the
HMAC of `gatewayOrderId + "|" + paymentId` under the gateway secret; on
exact match the order is marked paid (isPaid, paidAt, paymentStatus) and
the `confirmed` entry is appended, and on any mismatch the request fails
with Invalid payment signature (400) and the database — hence the order's
isPaid flag — is left exactly as it was. -/
theorem verifyPayment_spec (hmac : String → String → String) (secret : String)
    (db : Db) (uid oid : Nat) (rzo rzp sig : String) (now : Nat) (o : Order)
    (ho : findOrder db oid = some o) (hu : o.user = uid) :
    (sig = hmac secret (rzo ++ "|" ++ rzp) →
      verifyPayment hmac secret db uid oid rzo rzp sig now =
        (db.updateOrder (verifiedOrder o rzo rzp sig now),
         .ok (verifiedOrder o rzo rzp sig now))
      ∧ (verifiedOrder o rzo rzp sig now).isPaid = true
      ∧ (verifiedOrder o rzo rzp sig now).paidAt = some now
      ∧ (verifiedOrder o rzo rzp sig now).paymentStatus = "completed"
      ∧ (verifiedOrder o rzo rzp sig now).statusHistory =
          o.statusHistory ++ [⟨"confirmed", "Payment completed successfully", now⟩])
    ∧ (sig ≠ hmac secret (rzo ++ "|" ++ rzp) →
      verifyPayment hmac secret db uid oid rzo rzp sig now =
        (db, .error ⟨"Invalid payment signature", 400⟩)) := by
  constructor
  · intro hs
    refine ⟨?_, rfl, rfl, rfl, by simp [verifiedOrder, Order.addStatusUpdate]⟩
    simp only [verifyPayment, ho]
    rw [if_pos hu, if_pos hs.symm]
  · intro hs
    simp only [verifyPayment, ho]
    rw [if_pos hu, if_neg (fun h => hs h.symm)]

/-- Witness for C2: with a concrete hmac, the matching signature marks
order 11 paid and a wrong signature is rejected with 400 leaving the
database unchanged. -/
theorem verifyPayment_spec_witness :
    findOrder db2d 11 = some ord2 ∧
    (verifyPayment hmacDemo "sec" db2d 3 11 "rzo1" "pay1" "sec#rzo1|pay1" 9).2 =
      .ok (verifiedOrder ord2 "rzo1" "pay1" "sec#rzo1|pay1" 9) ∧
    (verifiedOrder ord2 "rzo1" "pay1" "sec#rzo1|pay1" 9).isPaid = true ∧
    verifyPayment hmacDemo "sec" db2d 3 11 "rzo1" "pay1" "bad" 9 =
      (db2d, .error ⟨"Invalid payment signature", 400⟩) := by
  refine ⟨rfl, ?_, rfl, ?_⟩
  · have h := (verifyPayment_spec hmacDemo "sec" db2d 3 11 "rzo1" "pay1"
      "sec#rzo1|pay1" 9 ord2 rfl rfl).1 (by decide)
    rw [h.1]
  · exact (verifyPayment_spec hmacDemo "sec" db2d 3 11 "rzo1" "pay1"
      "bad" 9 ord2 rfl rfl).2 (by decide)

/-- C7: the webhook answers 200 exactly when the header signature matches
the HMAC of the raw body — in particular an unrecognized event type and a
missing referenced order are both 200 no-ops — and the only non-200
response is the 400 of a signature mismatch. -/
theorem webhook_response_spec (hmac : String → String → String) (secret : String)
    (db : Db) (r : WebhookReq) (sig : String) (now : Nat) :
    ((webhookHandler hmac secret db r sig now).2 = 200 ↔ hmac secret r.raw = sig)
    ∧ (hmac secret r.raw = sig → r.event ≠ "payment.captured" →
        r.event ≠ "payment.failed" → webhookHandler hmac secret db r sig now = (db, 200))
    ∧ (hmac secret r.raw = sig → findOrder db r.orderId = none →
        webhookHandler hmac secret db r sig now = (db, 200))
    ∧ (¬ hmac secret r.raw = sig →
        webhookHandler hmac secret db r sig now = (db, 400)) := by
  refine ⟨?_, ?_, ?_, ?_⟩
  · by_cases h : hmac secret r.raw = sig <;> simp [webhookHandler, h]
  · intro h h1 h2
    unfold webhookHandler webhookStep
    rw [if_pos h, if_neg h1, if_neg h2]
  · intro h he
    unfold webhookHandler webhookStep
    rw [if_pos h]
    by_cases h1 : r.event = "payment.captured"
    · rw [if_pos h1, he]
    · rw [if_neg h1]
      by_cases h2 : r.event = "payment.failed"
      · rw [if_pos h2, he]
      · rw [if_neg h2]
  · intro h
    unfold webhookHandler
    rw [if_neg h]

/-- Witness for C7: a validly signed unknown event is a 200 no-op, and a
bad signature yields 400. -/
theorem webhook_response_spec_witness :
    hmacDemo "ws" "rawbody" = "ws#rawbody" ∧
    webhookHandler hmacDemo "ws" db3 ⟨"rawbody", "order.updated", 7⟩ "ws#rawbody" 1 =
      (db3, 200) ∧
    webhookHandler hmacDemo "ws" db3 capReq "nope" 1 = (db3, 400) := by
  refine ⟨rfl, ?_, ?_⟩
  · exact (webhook_response_spec hmacDemo "ws" db3
      ⟨"rawbody", "order.updated", 7⟩ "ws#rawbody" 1).2.1 rfl (by decide) (by decide)
  · exact (webhook_response_spec hmacDemo "ws" db3 capReq "nope" 1).2.2.2 (by decide)

/-- C3 is false on the code: delivering the same correctly signed
payment.captured webhook twice mutates the order further — the second
delivery appends a second `confirmed` status entry — so the state after
two applications differs from the state after one. -/
theorem webhook_captured_not_idempotent :
    (findOrder (webhookHandler hmacDemo "ws" db3 capReq capSig 5).1 7).map
        (fun o => o.statusHistory.length) = some 1 ∧
    (findOrder (webhookHandler hmacDemo "ws"
        (webhookHandler hmacDemo "ws" db3 capReq capSig 5).1 capReq capSig 5).1 7).map
        (fun o => o.statusHistory.length) = some 2 ∧
    (webhookHandler hmacDemo "ws"
        (webhookHandler hmacDemo "ws" db3 capReq capSig 5).1 capReq capSig 5).1 ≠
      (webhookHandler hmacDemo "ws" db3 capReq capSig 5).1 ∧
    ((findOrder (webhookHandler hmacDemo "ws" db3 capReq capSig 5).1 7).map
        Order.isPaid = some true) := by
  refine ⟨by decide, by decide, by decide, by decide⟩

/-- C6 is violated by the code: the refund route checks authentication but
never the caller's role, so a non-admin caller's refund of a paid order
succeeds — setting paymentStatus to refunded and appending the `cancelled`
entry with the refund id — while an unpaid order is rejected with 400. -/
theorem refund_missing_admin_check :
    plainUser.role ≠ "admin" ∧
    (refundHandler db6 plainUser 12 100 "rfnd_1" 8).2 =
      .ok ⟨"pay_9", toMinorUnits 100, "rfnd_1", ordRefunded⟩ ∧
    ordRefunded.paymentStatus = "refunded" ∧
    ordRefunded.statusHistory =
      ordPaid.statusHistory ++ [⟨"cancelled", "Refund processed: rfnd_1", 8⟩] ∧
    refundHandler db2d plainUser 11 100 "rfnd_2" 8 =
      (db2d, .error ⟨"Order is not paid", 400⟩) := by
  exact ⟨by decide, rfl, rfl, rfl, rfl⟩

/-- C8: both gateway calls send `Math.round(amount * 100)` minor units —
gateway-order creation for the order's totalPrice and refund for the
requested amount — and 250.50 major units round to 25050. -/
theorem gateway_amounts_minor_units (db : Db) (caller : Caller) (oid : Nat)
    (gid : String) (o : Order) (ho : findOrder db oid = some o)
    (hu : o.user = caller.id) :
    (∃ res, (createRazorpayOrder db caller oid gid).2 = .ok res ∧
      res.1.amountMinor = toMinorUnits o.totalPrice ∧
      res.1.amountMinor = jsRound (o.totalPrice * 100))
    ∧ (o.isPaid = true → ∀ amt rid now, ∃ out,
        (refundHandler db caller oid amt rid now).2 = .ok out ∧
        out.amountMinor = toMinorUnits amt)
    ∧ toMinorUnits (501 / 2 : ℚ) = 25050 := by
  refine ⟨?_, ?_, ?_⟩
  · simp only [createRazorpayOrder, ho]
    rw [if_pos hu]
    exact ⟨_, rfl, rfl, rfl⟩
  · intro hp amt rid now
    simp only [refundHandler, ho]
    rw [if_pos hp]
    exact ⟨_, rfl, rfl⟩
  · norm_num [toMinorUnits, jsRound]

/-- Witness for C8: creating the gateway order for the order with
totalPrice 250.50 sends exactly 25050 paise. -/
theorem gateway_amounts_minor_units_witness :
    findOrder db8 13 = some ordTot ∧
    ordTot.totalPrice = 501 / 2 ∧
    (∃ res, (createRazorpayOrder db8 ⟨4, "user"⟩ 13 "rzo9").2 = .ok res ∧
      res.1.amountMinor = toMinorUnits ordTot.totalPrice) ∧
    toMinorUnits (501 / 2 : ℚ) = 25050 := by
  have h := gateway_amounts_minor_units db8 ⟨4, "user"⟩ 13 "rzo9" ordTot rfl rfl
  obtain ⟨res, h1, h2, _⟩ := h.1
  exact ⟨rfl, rfl, ⟨res, h1, h2⟩, h.2.2⟩

/-- C9: under a refresh token that decodes to an existing user, the
token-refresh gate accepts exactly when the token is in the user's active
refresh-token set; a successful refresh removes the old token and adds the
new one, logout with a token removes exactly that token, and logout
without one empties the set. -/
theorem refreshToken_set_semantics (decode : String → Option Nat)
    (users : List AuthUser) (tok : String) (uid : Nat) (u : AuthUser)
    (hne : tok ≠ "") (hd : decode tok = some uid)
    (hu : users.find? (fun x => x.id = uid) = some u) :
    ((verifyRefreshToken decode users tok = .ok u) ↔
      tok ∈ u.refreshTokens.map TokenObj.token)
    ∧ (∀ oldTok newTok t,
        t ∈ (refreshHandler u oldTok newTok).refreshTokens.map TokenObj.token ↔
          ((t ∈ u.refreshTokens.map TokenObj.token ∧ t ≠ oldTok) ∨ t = newTok))
    ∧ (∀ t2 t, t2 ≠ "" →
        (t ∈ (logoutHandler u t2).refreshTokens.map TokenObj.token ↔
          (t ∈ u.refreshTokens.map TokenObj.token ∧ t ≠ t2)))
    ∧ (logoutHandler u "").refreshTokens = [] := by
  refine ⟨?_, ?_, ?_, by simp [logoutHandler]⟩
  · have hmem : (u.refreshTokens.any (fun t => t.token = tok) = true) ↔
        tok ∈ u.refreshTokens.map TokenObj.token := by
      simp [List.any_eq_true, List.mem_map]
    unfold verifyRefreshToken
    rw [if_neg hne]
    simp only [hd, hu]
    by_cases ha : u.refreshTokens.any (fun t => t.token = tok) = true
    · rw [if_pos ha]
      simp [hmem.mp ha]
    · rw [if_neg ha]
      constructor
      · intro hc
        exact Except.noConfusion hc
      · intro hc
        exact absurd (hmem.mpr hc) ha
  · intro oldTok newTok t
    simp only [refreshHandler, List.map_append, List.mem_append, List.map_cons,
      List.map_nil, List.mem_singleton, List.mem_map, List.mem_filter]
    constructor
    · rintro (⟨x, ⟨hx, hne2⟩, he⟩ | he)
      · refine Or.inl ⟨⟨x, hx, he⟩, ?_⟩
        rw [← he]
        simpa using hne2
      · exact Or.inr he
    · rintro (⟨⟨x, hx, he⟩, hne2⟩ | he)
      · refine Or.inl ⟨x, ⟨hx, ?_⟩, he⟩
        rw [he]
        simpa using hne2
      · exact Or.inr he
  · intro t2 t h2
    simp only [logoutHandler, if_neg h2, List.mem_map, List.mem_filter]
    constructor
    · rintro ⟨x, ⟨hx, hne2⟩, he⟩
      refine ⟨⟨x, hx, he⟩, ?_⟩
      rw [← he]
      simpa using hne2
    · rintro ⟨⟨x, hx, he⟩, hne2⟩
      refine ⟨x, ⟨hx, ?_⟩, he⟩
      rw [he]
      simpa using hne2

/-- Witness for C9: for the stored token t1 of user 21 the acceptance
condition holds concretely, and after a refresh to t3 the set is exactly
the other token t2 plus t3. -/
theorem refreshToken_set_semantics_witness :
    decodeDemo "t1" = some 21 ∧
    (verifyRefreshToken decodeDemo [userU] "t1" = .ok userU ↔
      "t1" ∈ userU.refreshTokens.map TokenObj.token) ∧
    verifyRefreshToken decodeDemo [userU] "t1" = .ok userU ∧
    (refreshHandler userU "t1" "t3").refreshTokens = [⟨"t2"⟩, ⟨"t3"⟩] ∧
    (logoutHandler userU "t2").refreshTokens = [⟨"t1"⟩] := by
  refine ⟨by decide, ?_, by decide, by decide, by decide⟩
  exact (refreshToken_set_semantics decodeDemo [userU] "t1" 21 userU
    (by decide) (by decide) (by decide)).1

end MernApi
